import Mathlib

/-!
Verification of the shelf-classification and columnar-layout program
(`src/app.py`): a shallow embedding of its data model and operations,
followed by theorems settling the specification's claims.

Python strings are modelled as Lean `String`; Python `None` as `Option`;
worksheets as row-major lists of cells; the xlsxwriter output sheet as a
function from (row, column) coordinates to an output cell, built by
replaying the program's sequence of cell writes.
-/

namespace OrganizeDarkStores

/-- Python `s.upper()`: upper-case every character (ASCII, as in the labels). -/
def upperStr (s : String) : String := ⟨s.data.map Char.toUpper⟩

/-- Python `s.lower()`: lower-case every character. -/
def lowerStr (s : String) : String := ⟨s.data.map Char.toLower⟩

/-- Python slice `s[2:]` on a string. -/
def strDrop2 (s : String) : String := ⟨s.data.drop 2⟩

/-- Python `s.strip()`: remove leading and trailing whitespace. -/
def stripStr (s : String) : String :=
  ⟨((s.data.dropWhile Char.isWhitespace).reverse.dropWhile Char.isWhitespace).reverse⟩

/-- Does `needle` occur as a contiguous run inside `hay`?  Models Python
`needle in hay` on strings (over the character lists). -/
def containsSub (needle : List Char) : List Char → Bool
  | [] => needle.isEmpty
  | c :: t => needle.isPrefixOf (c :: t) || containsSub needle t

/-- Python `"bin" in text.lower()` from `process_sheet`. -/
def hasBin (text : String) : Bool := containsSub "bin".data (lowerStr text).data

/-- `SHELF_COLORS` dict of `app.py`: the configured header colour per shelf
(`None` entries and absent keys both model as `none`, matching `dict.get`). -/
def SHELF_COLORS (s : String) : Option String :=
  if s = "A" then some "#00B050"
  else if s = "B" then some "#0070C0"
  else if s = "C" then some "#FFFF00"
  else if s = "D" then some "#61CBF3"
  else if s = "F" then some "#CC0000"
  else if s = "H" then some "#FFC000"
  else if s = "I" then some "#808080"
  else none

/-- `SHELF_ORDER = list("ABCDEFGHIJKLMNO") + ["Others"]`. -/
def SHELF_ORDER : List String :=
  ["A", "B", "C", "D", "E", "F", "G", "H", "I", "J", "K", "L", "M", "N", "O", "Others"]

/-- `detect_shelf` of `app.py`: strip the label, look at its 9th character
(0-based index 8), upper-case it, and return it as a shelf name when it is
one of `SHELF_ORDER[:-1]`, else `"Others"`.  (The `label is None` guard of
the Python code is subsumed by modelling labels as strings.) -/
def detect_shelf (label : String) : String :=
  let text := stripStr label
  if text.length < 9 then "Others"
  else
    let ch := String.singleton (Char.toUpper (text.data.getD 8 ' '))
    if ch ∈ SHELF_ORDER.dropLast then ch else "Others"

/-- An openpyxl colour object: its `type` and `rgb` attributes. -/
structure ColorObj where
  ctype : Option String
  rgb : Option String
deriving DecidableEq

/-- An openpyxl fill: `patternType`, `fgColor`, `start_color`.
A falsy/absent fill is modelled by `Option Fill` at the cell. -/
structure Fill where
  patternType : Option String
  fgColor : Option ColorObj
  start_color : Option ColorObj
deriving DecidableEq

/-- An input worksheet cell: its (stringified) value and its fill. -/
structure Cell where
  value : Option String
  fill : Option Fill
deriving DecidableEq

/-- The tail of `get_cell_color_hex`, once a colour object is in hand: the
direct-RGB branch (dropping the alpha prefix of an 8-digit ARGB value, and
returning only 6-digit values, upper-cased, behind `"#"`), then the
theme/indexed fallback, then `None`.  Python truthiness of the `rgb`
attribute (`None` or `""` are falsy) is modelled via `Option.getD ""`. -/
def colorFromObj (color_obj : ColorObj) : Option String :=
  let ctype := color_obj.ctype
  let rgb := color_obj.rgb.getD ""
  let fromRgb : Option String :=
    if ctype = some "rgb" ∧ rgb ≠ "" then
      let rgb1 := if rgb.length = 8 then strDrop2 rgb else rgb
      if rgb1.length = 6 then some ("#" ++ upperStr rgb1) else none
    else none
  fromRgb.orElse (fun _ =>
    if ctype = some "theme" ∨ ctype = some "indexed" then some "#61CBF3"
    else none)

/-- `get_cell_color_hex` of `app.py`: nothing for a falsy fill or a fill
with no (or `"none"`) pattern, else resolve `fgColor or start_color` and
hand the colour object to `colorFromObj`. -/
def get_cell_color_hex (cell : Cell) : Option String :=
  match cell.fill with
  | none => none
  | some fill =>
    if fill.patternType = none ∨ fill.patternType = some "none" then none
    else
      match fill.fgColor.orElse (fun _ => fill.start_color) with
      | none => none
      | some color_obj => colorFromObj color_obj

/-- The mutable state of `process_sheet`'s extraction loop: the per-shelf
`groups` dict (as a function on shelf names) and the `others_colors` list. -/
structure Groups where
  buckets : String → List String
  othersColors : List (Option String)

/-- `groups = {shelf: [] for shelf in SHELF_ORDER}; others_colors = []`.
(As a function the dict is empty at every key; only `SHELF_ORDER` keys are
ever read or written.) -/
def initGroups : Groups := ⟨fun _ => [], []⟩

/-- One iteration of the cell loop of `process_sheet`: skip empty cells,
skip labels containing "bin", classify, and append to the shelf's group
(recording the source colour for `Others`). -/
def processCell (g : Groups) (cell : Cell) : Groups :=
  match cell.value with
  | none => g
  | some val =>
    let text := stripStr val
    if text = "" then g
    else if hasBin text then g
    else
      let shelf := detect_shelf text
      if shelf = "Others" then
        { buckets := fun s => if s = "Others" then g.buckets s ++ [text] else g.buckets s,
          othersColors := g.othersColors ++ [get_cell_color_hex cell] }
      else
        { buckets := fun s => if s = shelf then g.buckets s ++ [text] else g.buckets s,
          othersColors := g.othersColors }

/-- The whole extraction loop of `process_sheet`:
`for row in ws.iter_rows(): for cell in row: ...` in row-major order. -/
def groupsOf (ws : List (List Cell)) : Groups :=
  ws.foldl (fun g row => row.foldl processCell g) initGroups

/-- `max((len(v) for v in groups.values()), default=0)` — dict values come
in insertion order, i.e. `SHELF_ORDER` order. -/
def maxLenOf (g : Groups) : Nat :=
  (SHELF_ORDER.map (fun s => (g.buckets s).length)).foldl max 0

/-- `process_sheet` of `app.py`: run the extraction loop, compute `max_len`,
right-pad every column with `""` and the `Others` colour list with `none`
to that length.  The returned first component models the `df_out` columns
(the `data` dict, read at `SHELF_ORDER` keys); the second models
`padded_others_colors`. -/
def process_sheet (ws : List (List Cell)) : (String → List String) × List (Option String) :=
  let g := groupsOf ws
  let max_len := maxLenOf g
  ( fun shelf => g.buckets shelf ++ List.replicate (max_len - (g.buckets shelf).length) "",
    g.othersColors ++ List.replicate (max_len - (g.buckets "Others").length) none )

/-- Specification-side mirror of one loop iteration's filtering: the label
text and source colour a cell contributes, or `none` when the cell is
skipped (empty value, blank after strip, or containing "bin"). -/
def extractCell (cell : Cell) : Option (String × Option String) :=
  match cell.value with
  | none => none
  | some val =>
    let text := stripStr val
    if text = "" then none
    else if hasBin text then none
    else some (text, get_cell_color_hex cell)

/-- The ordered sequence of (label, source colour) pairs extracted from a
cell sequence. -/
def extracted (cells : List Cell) : List (String × Option String) :=
  cells.filterMap extractCell

/-- The labels the classifier assigns to a given bucket, in extraction
order. -/
def bucketLabels (ws : List (List Cell)) (shelf : String) : List String :=
  (((extracted ws.flatten).filter (fun p => detect_shelf p.1 = shelf)).map Prod.fst)

/-- The source colours of the labels classified into `Others`, in
extraction order. -/
def othersColorsSpec (ws : List (List Cell)) : List (Option String) :=
  (((extracted ws.flatten).filter (fun p => detect_shelf p.1 = "Others")).map Prod.snd)

/-- The largest bucket size — the common column height of the packed
table. -/
def packMaxLen (ws : List (List Cell)) : Nat :=
  (SHELF_ORDER.map (fun s => (bucketLabels ws s).length)).foldl max 0

/-- One cell of the generated output sheet: its text and its background
fill (none = no fill set). -/
structure OutCell where
  text : String
  bg : Option String
deriving DecidableEq

/-- A single `ws.write(row, col, value, fmt)` action. -/
abbrev SheetWrite : Type := Nat × Nat × OutCell

/-- The output sheet as written so far: a function from (row, column) to
the cell content. -/
abbrev SheetGrid : Type := Nat → Nat → OutCell

/-- A fresh xlsxwriter sheet: every cell blank, no fill. -/
def blankGrid : SheetGrid := fun _ _ => ⟨"", none⟩

/-- Perform one write on the sheet. -/
def writeCell (g : SheetGrid) (r c : Nat) (v : OutCell) : SheetGrid :=
  fun r1 c1 => if r1 = r ∧ c1 = c then v else g r1 c1

/-- Perform a sequence of writes, in order. -/
def applyWrites (g : SheetGrid) (ws : List SheetWrite) : SheetGrid :=
  ws.foldl (fun g w => writeCell g w.1 w.2.1 w.2.2) g

/-- The shelf heading a 0-based output column index: `SHELF_ORDER[c]`. -/
def shelfAt (c : Nat) : String := SHELF_ORDER.getD c ""

/-- `others_col_idx = SHELF_ORDER.index("Others")`. -/
def others_col_idx : Nat := SHELF_ORDER.indexOf "Others"

/-- The writes `df_out.to_excel(..., header=False, startrow=2)` performs
for one column: every row of that column's data, with no fill, at sheet
row `2 + i`. -/
def dataColWrites (df : String → List String) (c : Nat) : List SheetWrite :=
  (List.range (df (shelfAt c)).length).map (fun i =>
    (2 + i, c, (⟨(df (shelfAt c)).getD i "", none⟩ : OutCell)))

/-- All writes of the `to_excel` data dump, column by column. -/
def dataWrites (df : String → List String) : List SheetWrite :=
  (List.range SHELF_ORDER.length).flatMap (dataColWrites df)

/-- One iteration of the header loop of `write_output_workbook`: row 0
gets the colour hex text with that colour as fill (blank text and no fill
when the shelf has no configured colour), and row 1 gets the shelf name
with the same fill. -/
def headerColWrites (c : Nat) : List SheetWrite :=
  match SHELF_COLORS (shelfAt c) with
  | some hc => [(0, c, (⟨hc, some hc⟩ : OutCell)), (1, c, (⟨shelfAt c, some hc⟩ : OutCell))]
  | none => [(0, c, (⟨"", none⟩ : OutCell)), (1, c, (⟨shelfAt c, none⟩ : OutCell))]

/-- All writes of the header loop. -/
def headerWrites : List SheetWrite :=
  (List.range SHELF_ORDER.length).flatMap headerColWrites

/-- One iteration of the `Others`-colour loop: `for i, color_hex in
enumerate(others_colors)`, skipping falsy colours, re-writing the data
value at `(2 + i, others_col_idx)` with the original colour as fill. -/
def othersRowWrite (df : String → List String) (oc : List (Option String)) (i : Nat) :
    List SheetWrite :=
  match oc.getD i none with
  | some s =>
      if s = "" then []
      else [(2 + i, others_col_idx, (⟨(df "Others").getD i "", some s⟩ : OutCell))]
  | none => []

/-- All writes of the `Others`-colour loop. -/
def othersWrites (df : String → List String) (oc : List (Option String)) : List SheetWrite :=
  (List.range oc.length).flatMap (othersRowWrite df oc)

/-- The full sequence of writes `write_output_workbook` performs on one
sheet, in program order: the `to_excel` data dump, then the header loop,
then the `Others` colour loop. -/
def sheetWrites (df : String → List String) (oc : List (Option String)) : List SheetWrite :=
  dataWrites df ++ headerWrites ++ othersWrites df oc

/-- The output sheet `write_output_workbook` produces for one
`(df_out, others_colors)` pair. -/
def write_output_sheet (df : String → List String) (oc : List (Option String)) : SheetGrid :=
  applyWrites blankGrid (sheetWrites df oc)

/-- `write_output_workbook`: one output sheet per input sheet, same name. -/
def write_output_workbook
    (sheets_data : List (String × ((String → List String) × List (Option String)))) :
    List (String × SheetGrid) :=
  sheets_data.map (fun p => (p.1, write_output_sheet p.2.1 p.2.2))

/-- `e.isOk`: did the run produce a result rather than an error message? -/
def exceptIsOk {ε α : Type} : Except ε α → Bool
  | Except.ok _ => true
  | Except.error _ => false

/-- The `generate` button handler of `app.py` (the part downstream of file
reading): with no file uploaded it reports a validation error; otherwise it
runs `process_sheet` on every worksheet, errors when the workbook has no
worksheets (`if not sheets_data`), and otherwise emits the output
workbook. -/
def generateRun (uploaded_file : Option (List (String × List (List Cell)))) :
    Except String (List (String × SheetGrid)) :=
  match uploaded_file with
  | none => Except.error "Please upload an Excel (.xlsx) file first."
  | some wb =>
    let sheets_data := wb.map (fun p => (p.1, process_sheet p.2))
    if sheets_data.isEmpty then Except.error "No data found in the uploaded workbook."
    else Except.ok (write_output_workbook sheets_data)

/-! ## Classifier lemmas -/

/-- The 15 shelf letters `A`–`O` of the specification. -/
def shelfLetters : List Char :=
  ['A', 'B', 'C', 'D', 'E', 'F', 'G', 'H', 'I', 'J', 'K', 'L', 'M', 'N', 'O']

theorem singleton_inj {a b : Char} (h : String.singleton a = String.singleton b) : a = b := by
  have hd := String.ext_iff.mp h
  simpa [String.singleton] using hd

theorem dropLast_shelf_order : SHELF_ORDER.dropLast = shelfLetters.map String.singleton := by
  decide

theorem singleton_mem_shelfLetters (c : Char) :
    String.singleton c ∈ SHELF_ORDER.dropLast ↔ c ∈ shelfLetters := by
  rw [dropLast_shelf_order, List.mem_map]
  constructor
  · rintro ⟨a, ha, hea⟩
    exact (singleton_inj hea) ▸ ha
  · intro hc
    exact ⟨c, hc, rfl⟩

/-- `detect_shelf`, rephrased with the membership test on characters. -/
theorem detect_shelf_eq (label : String) :
    detect_shelf label =
      if (stripStr label).length < 9 then "Others"
      else if Char.toUpper ((stripStr label).data.getD 8 ' ') ∈ shelfLetters
        then String.singleton (Char.toUpper ((stripStr label).data.getD 8 ' '))
        else "Others" := by
  unfold detect_shelf
  by_cases h : (stripStr label).length < 9
  · simp [h]
  · simp only [h, if_false]
    by_cases hm : String.singleton (Char.toUpper ((stripStr label).data.getD 8 ' '))
        ∈ SHELF_ORDER.dropLast
    · rw [if_pos hm, if_pos ((singleton_mem_shelfLetters _).mp hm)]
    · rw [if_neg hm, if_neg (fun hc => hm ((singleton_mem_shelfLetters _).mpr hc))]

theorem mem_shelf_order_of_letter {c : Char} (h : c ∈ shelfLetters) :
    String.singleton c ∈ SHELF_ORDER := by
  fin_cases h <;> decide

/-- C1: for every input label, `detect_shelf` inspects the 9th character
(1-indexed) of the stripped label; when the stripped label is shorter than
9 characters it returns `"Others"`; otherwise it upper-cases that character
and returns it as the bucket when it is one of the 15 letters `A`–`O`, else
`"Others"`; and the result is always exactly one of the 16 buckets of
`SHELF_ORDER`. -/
theorem detect_shelf_claim (label : String) :
    ((stripStr label).length < 9 → detect_shelf label = "Others") ∧
    (9 ≤ (stripStr label).length →
      (Char.toUpper ((stripStr label).data.getD 8 ' ') ∈ shelfLetters →
        detect_shelf label = String.singleton (Char.toUpper ((stripStr label).data.getD 8 ' '))) ∧
      (Char.toUpper ((stripStr label).data.getD 8 ' ') ∉ shelfLetters →
        detect_shelf label = "Others")) ∧
    detect_shelf label ∈ SHELF_ORDER := by
  have heq := detect_shelf_eq label
  refine ⟨fun h => by rw [heq, if_pos h], fun h => ?_, ?_⟩
  · have hlt : ¬ (stripStr label).length < 9 := by omega
    constructor
    · intro hch
      rw [heq, if_neg hlt, if_pos hch]
    · intro hch
      rw [heq, if_neg hlt, if_neg hch]
  · rw [heq]
    by_cases h : (stripStr label).length < 9
    · simp [h]; decide
    · rw [if_neg h]
      by_cases hch : Char.toUpper ((stripStr label).data.getD 8 ' ') ∈ shelfLetters
      · rw [if_pos hch]
        exact mem_shelf_order_of_letter hch
      · rw [if_neg hch]; decide

/-- Witness for C1: a concrete label with a 9th character in `A`–`O`. -/
theorem detect_shelf_claim_witness :
    9 ≤ (stripStr "HAZ-A101I123").length ∧ detect_shelf "HAZ-A101I123" = "I" := by
  refine ⟨by decide, ?_⟩
  have h := ((detect_shelf_claim "HAZ-A101I123").2.1 (by decide)).1 (by decide)
  rw [h]; decide

/-- C4: for stripped labels of length at least 9, the classification
depends only on the upper-cased 9th character; two such labels with equal
upper-cased 9th characters classify identically.  (Per the data model,
a Label is a trimmed string, captured by the `stripStr Li = Li`
hypotheses.) -/
theorem detect_shelf_ninth_only (L1 L2 : String)
    (h1 : stripStr L1 = L1) (h2 : stripStr L2 = L2)
    (hl1 : 9 ≤ L1.length) (hl2 : 9 ≤ L2.length)
    (hch : Char.toUpper (L1.data.getD 8 ' ') = Char.toUpper (L2.data.getD 8 ' ')) :
    detect_shelf L1 = detect_shelf L2 := by
  rw [detect_shelf_eq, detect_shelf_eq, h1, h2, hch]
  have hn1 : ¬ L1.length < 9 := by omega
  have hn2 : ¬ L2.length < 9 := by omega
  rw [if_neg hn1, if_neg hn2]

/-- Witness for C4: two concrete distinct labels sharing only the
upper-cased 9th character. -/
theorem detect_shelf_ninth_only_witness :
    stripStr "HAZ-A101A110" = "HAZ-A101A110" ∧
    detect_shelf "HAZ-A101A110" = detect_shelf "XXXXXXXXa999" :=
  ⟨by decide,
   detect_shelf_ninth_only "HAZ-A101A110" "XXXXXXXXa999"
     (by decide) (by decide) (by decide) (by decide) (by decide)⟩

/-! ## Extraction and packing lemmas -/

theorem processCell_extract_none (g : Groups) (c : Cell) (h : extractCell c = none) :
    processCell g c = g := by
  rcases c with ⟨v, f⟩
  cases v with
  | none => rfl
  | some val =>
    unfold extractCell at h
    unfold processCell
    simp only at h ⊢
    by_cases h0 : stripStr val = ""
    · simp [h0]
    · by_cases hb : hasBin (stripStr val)
      · simp [h0, hb]
      · simp [h0, hb] at h

theorem processCell_extract_some (g : Groups) (c : Cell) (t : String) (col : Option String)
    (h : extractCell c = some (t, col)) :
    (∀ s, (processCell g c).buckets s =
      if detect_shelf t = s then g.buckets s ++ [t] else g.buckets s) ∧
    (processCell g c).othersColors =
      (if detect_shelf t = "Others" then g.othersColors ++ [col] else g.othersColors) := by
  rcases c with ⟨v, f⟩
  cases v with
  | none => simp [extractCell] at h
  | some val =>
    unfold extractCell at h
    simp only at h
    by_cases h0 : stripStr val = ""
    · simp [h0] at h
    · by_cases hb : hasBin (stripStr val)
      · simp [h0, hb] at h
      · rw [if_neg h0, if_neg hb] at h
        injection h with h
        rw [Prod.mk.injEq] at h
        obtain ⟨ht, hcol⟩ := h
        subst ht; subst hcol
        unfold processCell
        dsimp only
        rw [if_neg h0, if_neg hb]
        by_cases hd : detect_shelf (stripStr val) = "Others"
        · rw [if_pos hd]
          refine ⟨fun s => ?_, ?_⟩
          · dsimp only
            rw [hd]
            by_cases hs : s = "Others"
            · rw [if_pos hs, if_pos hs.symm]
            · rw [if_neg hs, if_neg (fun he => hs he.symm)]
          · dsimp only
            rw [if_pos hd]
        · rw [if_neg hd]
          refine ⟨fun s => ?_, ?_⟩
          · dsimp only
            by_cases hs : s = detect_shelf (stripStr val)
            · rw [if_pos hs, if_pos hs.symm]
            · rw [if_neg hs, if_neg (fun he => hs he.symm)]
          · dsimp only
            rw [if_neg hd]

theorem foldl_processCell_spec (cells : List Cell) (g : Groups) :
    (∀ s, (cells.foldl processCell g).buckets s =
        g.buckets s ++ ((extracted cells).filter (fun p => detect_shelf p.1 = s)).map Prod.fst) ∧
    (cells.foldl processCell g).othersColors =
        g.othersColors ++
          ((extracted cells).filter (fun p => detect_shelf p.1 = "Others")).map Prod.snd := by
  induction cells generalizing g with
  | nil => simp [extracted]
  | cons c t ih =>
    cases hx : extractCell c with
    | none =>
      rw [List.foldl_cons, processCell_extract_none g c hx]
      constructor
      · intro s
        rw [(ih g).1 s]
        simp [extracted, List.filterMap_cons, hx]
      · rw [(ih g).2]
        simp [extracted, List.filterMap_cons, hx]
    | some p =>
      rcases p with ⟨tl, col⟩
      obtain ⟨hb, hc⟩ := processCell_extract_some g c tl col hx
      constructor
      · intro s
        rw [List.foldl_cons, (ih (processCell g c)).1 s, hb s]
        simp only [extracted, List.filterMap_cons, hx, List.filter_cons]
        by_cases hd : detect_shelf tl = s
        · simp [hd, List.append_assoc, extracted]
        · simp [hd, extracted]
      · rw [List.foldl_cons, (ih (processCell g c)).2, hc]
        simp only [extracted, List.filterMap_cons, hx, List.filter_cons]
        by_cases hd : detect_shelf tl = "Others"
        · simp [hd, List.append_assoc, extracted]
        · simp [hd, extracted]

theorem foldl_nested_eq_flatten (ws : List (List Cell)) (g : Groups) :
    ws.foldl (fun g row => row.foldl processCell g) g = ws.flatten.foldl processCell g := by
  induction ws generalizing g with
  | nil => rfl
  | cons row t ih =>
    rw [List.foldl_cons, ih, List.flatten_cons, List.foldl_append]

theorem groupsOf_buckets (ws : List (List Cell)) (s : String) :
    (groupsOf ws).buckets s = bucketLabels ws s := by
  unfold groupsOf
  rw [foldl_nested_eq_flatten]
  have h := (foldl_processCell_spec ws.flatten initGroups).1 s
  simpa [initGroups, bucketLabels] using h

theorem groupsOf_colors (ws : List (List Cell)) :
    (groupsOf ws).othersColors = othersColorsSpec ws := by
  unfold groupsOf
  rw [foldl_nested_eq_flatten]
  have h := (foldl_processCell_spec ws.flatten initGroups).2
  simpa [initGroups, othersColorsSpec] using h

theorem maxLenOf_groupsOf (ws : List (List Cell)) :
    maxLenOf (groupsOf ws) = packMaxLen ws := by
  unfold maxLenOf packMaxLen
  congr 1
  exact List.map_congr_left (fun s _ => by rw [groupsOf_buckets])

theorem init_le_foldl_max (l : List Nat) : ∀ a : Nat, a ≤ l.foldl max a := by
  induction l with
  | nil => intro a; exact le_refl a
  | cons b t ih => intro a; exact le_trans (Nat.le_max_left a b) (ih (max a b))

theorem le_foldl_max (l : List Nat) (a : Nat) (h : a ∈ l) : ∀ i : Nat, a ≤ l.foldl max i := by
  induction l with
  | nil => cases h
  | cons b t ih =>
    intro i
    rw [List.foldl_cons]
    rcases List.mem_cons.mp h with rfl | ht
    · exact le_trans (Nat.le_max_right i a) (init_le_foldl_max t _)
    · exact ih ht (max i b)

theorem bucketLabels_length_le (ws : List (List Cell)) (shelf : String)
    (hs : shelf ∈ SHELF_ORDER) : (bucketLabels ws shelf).length ≤ packMaxLen ws := by
  unfold packMaxLen
  exact le_foldl_max (SHELF_ORDER.map (fun s => (bucketLabels ws s).length))
    (bucketLabels ws shelf).length (List.mem_map.mpr ⟨shelf, hs, rfl⟩) 0

theorem process_sheet_col_eq (ws : List (List Cell)) (shelf : String) :
    (process_sheet ws).1 shelf =
      bucketLabels ws shelf ++
        List.replicate (packMaxLen ws - (bucketLabels ws shelf).length) "" := by
  show (groupsOf ws).buckets shelf ++
      List.replicate (maxLenOf (groupsOf ws) - ((groupsOf ws).buckets shelf).length) "" = _
  rw [groupsOf_buckets, maxLenOf_groupsOf]

theorem process_sheet_colors_eq (ws : List (List Cell)) :
    (process_sheet ws).2 =
      othersColorsSpec ws ++
        List.replicate (packMaxLen ws - (bucketLabels ws "Others").length) none := by
  show (groupsOf ws).othersColors ++
      List.replicate (maxLenOf (groupsOf ws) - ((groupsOf ws).buckets "Others").length) none = _
  rw [groupsOf_colors, groupsOf_buckets, maxLenOf_groupsOf]

theorem othersColorsSpec_length (ws : List (List Cell)) :
    (othersColorsSpec ws).length = (bucketLabels ws "Others").length := by
  simp [othersColorsSpec, bucketLabels]

/-! ## C2, C3: packing and round-trip -/

/-- C2: every bucket column of the packed table has the common length
`packMaxLen` (the largest bucket size), and equals the classifier's
sequence for that bucket — in extraction order, nothing dropped beyond the
exclusion filter — right-padded with exactly `packMaxLen` minus the bucket
size empty cells. -/
theorem process_sheet_pack (ws : List (List Cell)) (shelf : String)
    (hs : shelf ∈ SHELF_ORDER) :
    ((process_sheet ws).1 shelf).length = packMaxLen ws ∧
    (process_sheet ws).1 shelf =
      bucketLabels ws shelf ++
        List.replicate (packMaxLen ws - (bucketLabels ws shelf).length) "" := by
  refine ⟨?_, process_sheet_col_eq ws shelf⟩
  rw [process_sheet_col_eq, List.length_append, List.length_replicate]
  have := bucketLabels_length_le ws shelf hs
  omega

/-- Witness for C2 at a concrete worksheet and bucket. -/
theorem process_sheet_pack_witness :
    "A" ∈ SHELF_ORDER ∧
    ((process_sheet [[⟨some "HAZ-A101A110", none⟩, ⟨some "X", none⟩]]).1 "A").length =
      packMaxLen [[⟨some "HAZ-A101A110", none⟩, ⟨some "X", none⟩]] :=
  ⟨by decide, (process_sheet_pack [[⟨some "HAZ-A101A110", none⟩, ⟨some "X", none⟩]] "A"
    (by decide)).1⟩

theorem extractCell_fst_ne (c : Cell) (p : String × Option String)
    (h : extractCell c = some p) : p.1 ≠ "" := by
  rcases c with ⟨v, f⟩
  cases v with
  | none => simp [extractCell] at h
  | some val =>
    unfold extractCell at h
    simp only at h
    by_cases h0 : stripStr val = ""
    · simp [h0] at h
    · by_cases hb : hasBin (stripStr val)
      · simp [h0, hb] at h
      · rw [if_neg h0, if_neg hb] at h
        injection h with h
        rw [← h]
        exact h0

theorem bucketLabels_ne_empty (ws : List (List Cell)) (shelf : String) :
    ∀ t ∈ bucketLabels ws shelf, t ≠ "" := by
  intro t ht
  obtain ⟨p, hp, hpt⟩ := List.mem_map.mp ht
  have hpe : p ∈ extracted ws.flatten := List.mem_of_mem_filter hp
  obtain ⟨c, _, hc⟩ := List.mem_filterMap.mp hpe
  rw [← hpt]
  exact extractCell_fst_ne c p hc

theorem filter_ne_replicate (n : Nat) :
    (List.replicate n ("" : String)).filter (fun t => t ≠ "") = [] := by
  induction n with
  | zero => rfl
  | succ n ih => simp [List.replicate_succ, List.filter_cons, ih]

/-- C3: round-trip — scanning the non-empty cells of any bucket column of
the packed table, top to bottom, recovers exactly the sequence of labels
the classifier assigned to that bucket, in the original order. -/
theorem process_sheet_roundtrip (ws : List (List Cell)) (shelf : String)
    (hs : shelf ∈ SHELF_ORDER) :
    ((process_sheet ws).1 shelf).filter (fun t => t ≠ "") = bucketLabels ws shelf := by
  rw [process_sheet_col_eq, List.filter_append, filter_ne_replicate, List.append_nil,
    List.filter_eq_self.mpr]
  intro t ht
  simpa using bucketLabels_ne_empty ws shelf t ht

/-- Witness for C3 at a concrete worksheet and bucket. -/
theorem process_sheet_roundtrip_witness :
    "Others" ∈ SHELF_ORDER ∧
    ((process_sheet [[⟨some "HAZ-A101A110", none⟩, ⟨some "X", none⟩]]).1 "Others").filter
        (fun t => t ≠ "") =
      bucketLabels [[⟨some "HAZ-A101A110", none⟩, ⟨some "X", none⟩]] "Others" :=
  ⟨by decide,
   process_sheet_roundtrip [[⟨some "HAZ-A101A110", none⟩, ⟨some "X", none⟩]] "Others" (by decide)⟩

/-! ## C7, C8: concrete scenarios -/

/-- C7: the single label `"HAZ-A101BIN45"` is dropped by the extraction
filter (its lower-cased form contains `"bin"`): nothing is extracted, every
bucket column of the resulting table is empty, and the colour list is
empty. -/
theorem process_sheet_bin_excluded :
    extracted ([[⟨some "HAZ-A101BIN45", none⟩]] : List (List Cell)).flatten = [] ∧
    (process_sheet [[⟨some "HAZ-A101BIN45", none⟩]]).1 = (fun _ => []) ∧
    (process_sheet [[⟨some "HAZ-A101BIN45", none⟩]]).2 = [] :=
  ⟨rfl, funext (fun _ => rfl), rfl⟩

/-- C8: on the empty input, every bucket column of the packed table has
zero rows; the common column length `packMaxLen` is `0`, so no padding is
added anywhere. -/
theorem process_sheet_empty_input :
    (process_sheet ([] : List (List Cell))).1 = (fun _ => []) ∧
    packMaxLen ([] : List (List Cell)) = 0 ∧
    (process_sheet ([] : List (List Cell))).2 = [] :=
  ⟨funext (fun _ => rfl), rfl, rfl⟩

/-! ## C10: the Others colour list stays parallel to the Others column -/

theorem getD_replicate_none (n i : Nat) :
    (List.replicate n (none : Option String)).getD i none = none := by
  induction n generalizing i with
  | zero => cases i <;> rfl
  | succ n ih =>
    cases i with
    | zero => rfl
    | succ i => simpa [List.replicate_succ, List.getD] using ih i

/-- C10: the padded `others_colors` list returned by `process_sheet` has
the common column length `packMaxLen`; it equals the per-label source-cell
colours of the `Others` labels (in order) padded with `none`; entry `i` is
the colour of the `i`-th `Others` label for `i` below the bucket size, and
`none` beyond it. -/
theorem process_sheet_others_parallel (ws : List (List Cell)) :
    ((process_sheet ws).2).length = packMaxLen ws ∧
    (process_sheet ws).2 =
      othersColorsSpec ws ++
        List.replicate (packMaxLen ws - (othersColorsSpec ws).length) none ∧
    (∀ i, i < (bucketLabels ws "Others").length →
      ((process_sheet ws).2).getD i none = (othersColorsSpec ws).getD i none) ∧
    (∀ i, (bucketLabels ws "Others").length ≤ i →
      ((process_sheet ws).2).getD i none = none) := by
  have hle : (bucketLabels ws "Others").length ≤ packMaxLen ws :=
    bucketLabels_length_le ws "Others" (by decide)
  have hlen := othersColorsSpec_length ws
  have heq := process_sheet_colors_eq ws
  refine ⟨?_, ?_, ?_, ?_⟩
  · rw [heq, List.length_append, List.length_replicate, hlen]
    omega
  · rw [heq, hlen]
  · intro i hi
    rw [heq, List.getD_append]
    omega
  · intro i hi
    rw [heq]
    rcases Nat.lt_or_ge i ((othersColorsSpec ws).length) with hlt | hge
    · omega
    · rw [List.getD_append_right _ _ _ _ hge]
      exact getD_replicate_none _ _

/-- Witness for C10 at a concrete worksheet with one coloured `Others`
label and two `A` labels (so one pad entry). -/
theorem process_sheet_others_parallel_witness :
    ((process_sheet [[⟨some "X",
        some ⟨some "solid", some ⟨some "rgb", some "00B050"⟩, none⟩⟩,
      ⟨some "HAZ-A101A110", none⟩, ⟨some "HAZ-A101A111", none⟩]]).2).getD 0 none =
      (othersColorsSpec [[⟨some "X",
        some ⟨some "solid", some ⟨some "rgb", some "00B050"⟩, none⟩⟩,
      ⟨some "HAZ-A101A110", none⟩, ⟨some "HAZ-A101A111", none⟩]]).getD 0 none ∧
    ((process_sheet [[⟨some "X",
        some ⟨some "solid", some ⟨some "rgb", some "00B050"⟩, none⟩⟩,
      ⟨some "HAZ-A101A110", none⟩, ⟨some "HAZ-A101A111", none⟩]]).2).getD 1 none = none :=
  ⟨(process_sheet_others_parallel _).2.2.1 0 (by decide),
   (process_sheet_others_parallel _).2.2.2 1 (by decide)⟩

/-! ## C5: empty-input handling of the generate handler -/

/-- Counterexample to C5: a workbook holding one worksheet with no cells —
so no labels are extracted from the upload — still makes the run produce an
output workbook (`Except.ok`) instead of aborting with a validation
message. -/
theorem generateRun_no_labels_counterexample :
    extracted (([] : List (List Cell)).flatten) = [] ∧
    exceptIsOk (generateRun (some [("Sheet1", ([] : List (List Cell)))])) = true :=
  ⟨rfl, rfl⟩

/-- C5 as the code behaves: the run aborts with a user-facing validation
message exactly when no file is supplied or the uploaded workbook has no
worksheets at all; a workbook with at least one worksheet always yields an
output workbook, even when its sheets contain no labels. -/
theorem generateRun_empty_input (wb : List (String × List (List Cell))) (hwb : wb ≠ []) :
    generateRun none = Except.error "Please upload an Excel (.xlsx) file first." ∧
    generateRun (some []) = Except.error "No data found in the uploaded workbook." ∧
    exceptIsOk (generateRun (some wb)) = true := by
  refine ⟨rfl, rfl, ?_⟩
  cases wb with
  | nil => exact absurd rfl hwb
  | cons h t => rfl

/-- Witness for the amended C5 at a concrete one-sheet workbook. -/
theorem generateRun_empty_input_witness :
    ([("Sheet1", ([[]] : List (List Cell)))] ≠
      ([] : List (String × List (List Cell)))) ∧
    exceptIsOk (generateRun (some [("Sheet1", ([[]] : List (List Cell)))])) = true :=
  ⟨by decide, (generateRun_empty_input [("Sheet1", [[]])] (by decide)).2.2⟩

/-! ## C9: shape of the colour values `get_cell_color_hex` returns -/

/-- The characters Python accepts as hexadecimal digits in an (A)RGB
string. -/
def hexDigits : List Char :=
  ['A', 'B', 'C', 'D', 'E', 'F', 'a', 'b', 'c', 'd', 'e', 'f',
   '0', '1', '2', '3', '4', '5', '6', '7', '8', '9']

/-- Upper-case hexadecimal digits. -/
def upperHexDigits : List Char :=
  ['A', 'B', 'C', 'D', 'E', 'F', '0', '1', '2', '3', '4', '5', '6', '7', '8', '9']

/-- `"#"` followed by exactly six upper-case hexadecimal digits. -/
def isHexColor (s : String) : Bool :=
  match s.data with
  | c :: rest => (c == '#') && rest.length == 6 && rest.all (fun d => decide (d ∈ upperHexDigits))
  | [] => false

/-- openpyxl validates `rgb` attributes to be hexadecimal: the input-domain
hypothesis that every character of the resolved colour object's `rgb`
string is a hex digit. -/
def cellRgbHexInput (cell : Cell) : Bool :=
  match cell.fill with
  | none => true
  | some fill =>
    match fill.fgColor.orElse (fun _ => fill.start_color) with
    | none => true
    | some co =>
      match co.rgb with
      | none => true
      | some r => r.data.all (fun c => decide (c ∈ hexDigits))

theorem toUpper_hexDigit (c : Char) (h : c ∈ hexDigits) : Char.toUpper c ∈ upperHexDigits := by
  fin_cases h <;> decide

theorem isHexColor_hash_upper (r : String) (h6 : r.data.length = 6)
    (hall : ∀ c ∈ r.data, c ∈ hexDigits) : isHexColor ("#" ++ upperStr r) = true := by
  have hd : "#" ++ upperStr r = (⟨'#' :: r.data.map Char.toUpper⟩ : String) := rfl
  rw [hd]
  unfold isHexColor
  dsimp only
  rw [Bool.and_eq_true, Bool.and_eq_true]
  refine ⟨⟨rfl, ?_⟩, ?_⟩
  · rw [List.length_map, h6]
    rfl
  · apply List.all_eq_true.mpr
    intro c hc
    obtain ⟨a, ha, rfl⟩ := List.mem_map.mp hc
    exact decide_eq_true (toUpper_hexDigit a (hall a ha))

theorem colorFromObj_rgb (co : ColorObj) (r : String)
    (hct : co.ctype = some "rgb") (hr : co.rgb = some r) :
    (r.length = 6 → colorFromObj co = some ("#" ++ upperStr r)) ∧
    (r.length = 8 → colorFromObj co = some ("#" ++ upperStr (strDrop2 r))) := by
  constructor
  · intro h6
    have hne : r ≠ "" := by
      intro he
      rw [he] at h6
      simp [String.length] at h6
    simp [colorFromObj, hct, hr, hne, h6]
  · intro h8
    have hne : r ≠ "" := by
      intro he
      rw [he] at h8
      simp [String.length] at h8
    have hd6 : (strDrop2 r).length = 6 := by
      show (r.data.drop 2).length = 6
      rw [List.length_drop]
      have hl : r.data.length = 8 := h8
      omega
    simp [colorFromObj, hct, hr, hne, h8, hd6]

theorem colorFromObj_theme (co : ColorObj)
    (h : co.ctype = some "theme" ∨ co.ctype = some "indexed") :
    colorFromObj co = some "#61CBF3" := by
  rcases h with h | h <;> simp [colorFromObj, h]

theorem colorFromObj_hex (co : ColorObj)
    (hhex : ∀ r, co.rgb = some r → ∀ c ∈ r.data, c ∈ hexDigits) :
    colorFromObj co = none ∨ ∃ s, colorFromObj co = some s ∧ isHexColor s = true := by
  cases hrg : co.rgb with
  | none =>
    by_cases ht : co.ctype = some "theme" ∨ co.ctype = some "indexed"
    · right
      refine ⟨"#61CBF3", ?_, by decide⟩
      rcases ht with h | h <;> simp [colorFromObj, h]
    · left
      simp [colorFromObj, hrg, ht]
  | some r =>
    by_cases hct : co.ctype = some "rgb"
    · by_cases hne : r = ""
      · left
        simp [colorFromObj, hrg, hct, hne]
      · by_cases h8 : r.length = 8
        · have hd6 : (strDrop2 r).length = 6 := by
            show (r.data.drop 2).length = 6
            rw [List.length_drop]
            have hl : r.data.length = 8 := h8
            omega
          right
          refine ⟨_, (colorFromObj_rgb co r hct hrg).2 h8, ?_⟩
          apply isHexColor_hash_upper
          · exact hd6
          · intro c hc
            exact hhex r hrg c (List.mem_of_mem_drop hc)
        · by_cases h6 : r.length = 6
          · right
            exact ⟨_, (colorFromObj_rgb co r hct hrg).1 h6,
              isHexColor_hash_upper r h6 (hhex r hrg)⟩
          · left
            simp [colorFromObj, hrg, hct, hne, h8, h6]
    · by_cases ht : co.ctype = some "theme" ∨ co.ctype = some "indexed"
      · right
        refine ⟨"#61CBF3", ?_, by decide⟩
        rcases ht with h | h <;> simp [colorFromObj, h]
      · left
        simp [colorFromObj, hrg, hct, ht]

theorem get_cell_color_hex_obj (v : Option String) (pt : Option String)
    (fg sc : Option ColorObj) (co : ColorObj)
    (hpt : ¬ (pt = none ∨ pt = some "none"))
    (ho : fg.orElse (fun _ => sc) = some co) :
    get_cell_color_hex ⟨v, some ⟨pt, fg, sc⟩⟩ = colorFromObj co := by
  unfold get_cell_color_hex
  dsimp only
  rw [if_neg hpt, ho]

/-- C9: provided the colour object's `rgb` string holds only hexadecimal
digits (openpyxl's own invariant on `rgb` attributes), `get_cell_color_hex`
returns `none` or `"#"` followed by exactly six upper-case hex digits; it
returns `none` when the fill is falsy or has no (or `"none"`) pattern;
for a direct-RGB colour object it returns the upper-cased RGB as
`#RRGGBB` (dropping the alpha prefix of an 8-digit ARGB value); and for a
theme or indexed colour object it returns the fixed fallback `"#61CBF3"`. -/
theorem get_cell_color_hex_spec (cell : Cell) (hhex : cellRgbHexInput cell = true) :
    (get_cell_color_hex cell = none ∨
      ∃ s, get_cell_color_hex cell = some s ∧ isHexColor s = true) ∧
    (cell.fill = none → get_cell_color_hex cell = none) ∧
    (∀ fill, cell.fill = some fill →
      (fill.patternType = none ∨ fill.patternType = some "none") →
      get_cell_color_hex cell = none) ∧
    (∀ fill co r, cell.fill = some fill →
      ¬ (fill.patternType = none ∨ fill.patternType = some "none") →
      fill.fgColor.orElse (fun _ => fill.start_color) = some co →
      co.ctype = some "rgb" → co.rgb = some r →
      (r.length = 6 → get_cell_color_hex cell = some ("#" ++ upperStr r)) ∧
      (r.length = 8 → get_cell_color_hex cell = some ("#" ++ upperStr (strDrop2 r)))) ∧
    (∀ fill co, cell.fill = some fill →
      ¬ (fill.patternType = none ∨ fill.patternType = some "none") →
      fill.fgColor.orElse (fun _ => fill.start_color) = some co →
      (co.ctype = some "theme" ∨ co.ctype = some "indexed") →
      get_cell_color_hex cell = some "#61CBF3") := by
  rcases cell with ⟨v, fl⟩
  cases fl with
  | none =>
    refine ⟨Or.inl rfl, fun _ => rfl, ?_, ?_, ?_⟩
    · intro fill h
      simp at h
    · intro fill co r h
      simp at h
    · intro fill co h
      simp at h
  | some fill =>
    rcases fill with ⟨pt, fg, sc⟩
    by_cases hpt : pt = none ∨ pt = some "none"
    · have hg : get_cell_color_hex ⟨v, some ⟨pt, fg, sc⟩⟩ = none := by
        unfold get_cell_color_hex
        dsimp only
        rw [if_pos hpt]
      refine ⟨Or.inl hg, ?_, ?_, ?_, ?_⟩
      · intro h
        simp at h
      · intro fill2 hf hp
        exact hg
      · intro fill2 co r hf hnpt hco hct hr
        dsimp only at hf
        injection hf with hf
        rw [← hf] at hnpt
        dsimp only at hnpt
        exact absurd hpt hnpt
      · intro fill2 co hf hnpt hco hth
        dsimp only at hf
        injection hf with hf
        rw [← hf] at hnpt
        dsimp only at hnpt
        exact absurd hpt hnpt
    · cases ho : fg.orElse (fun _ => sc) with
      | none =>
        have hg : get_cell_color_hex ⟨v, some ⟨pt, fg, sc⟩⟩ = none := by
          unfold get_cell_color_hex
          dsimp only
          rw [if_neg hpt, ho]
        refine ⟨Or.inl hg, ?_, ?_, ?_, ?_⟩
        · intro h
          simp at h
        · intro fill2 hf hp
          exact hg
        · intro fill2 co r hf hnpt hco hct hr
          dsimp only at hf
          injection hf with hf
          rw [← hf] at hco
          dsimp only at hco
          rw [ho] at hco
          cases hco
        · intro fill2 co hf hnpt hco hth
          dsimp only at hf
          injection hf with hf
          rw [← hf] at hco
          dsimp only at hco
          rw [ho] at hco
          cases hco
      | some co =>
        have hg := get_cell_color_hex_obj v pt fg sc co hpt ho
        have hhexco : ∀ r, co.rgb = some r → ∀ c ∈ r.data, c ∈ hexDigits := by
          intro r hr c hc
          unfold cellRgbHexInput at hhex
          dsimp only at hhex
          rw [ho] at hhex
          dsimp only at hhex
          rw [hr] at hhex
          dsimp only at hhex
          have hall := List.all_eq_true.mp hhex c hc
          exact decide_eq_true_eq.mp hall
        refine ⟨?_, ?_, ?_, ?_, ?_⟩
        · rw [hg]
          exact colorFromObj_hex co hhexco
        · intro h
          simp at h
        · intro fill2 hf hp
          dsimp only at hf
          injection hf with hf
          rw [← hf] at hp
          dsimp only at hp
          exact absurd hp hpt
        · intro fill2 co2 r hf hnpt hco hct hr
          dsimp only at hf
          injection hf with hf
          rw [← hf] at hco
          dsimp only at hco
          rw [ho] at hco
          injection hco with hco
          rw [hg, hco]
          exact colorFromObj_rgb co2 r hct hr
        · intro fill2 co2 hf hnpt hco hth
          dsimp only at hf
          injection hf with hf
          rw [← hf] at hco
          dsimp only at hco
          rw [ho] at hco
          injection hco with hco
          rw [hg, hco]
          exact colorFromObj_theme co2 hth

/-- Witness for C9 at a concrete cell carrying a solid 8-digit ARGB fill. -/
theorem get_cell_color_hex_spec_witness :
    cellRgbHexInput ⟨some "x", some ⟨some "solid", some ⟨some "rgb", some "FF00b050"⟩, none⟩⟩ =
      true ∧
    (get_cell_color_hex
        ⟨some "x", some ⟨some "solid", some ⟨some "rgb", some "FF00b050"⟩, none⟩⟩ = none ∨
      ∃ s, get_cell_color_hex
          ⟨some "x", some ⟨some "solid", some ⟨some "rgb", some "FF00b050"⟩, none⟩⟩ = some s ∧
        isHexColor s = true) :=
  ⟨by decide,
   (get_cell_color_hex_spec
     ⟨some "x", some ⟨some "solid", some ⟨some "rgb", some "FF00b050"⟩, none⟩⟩ (by decide)).1⟩

/-! ## C6: layout of the emitted sheet -/

/-- Does a write target position `(r, c)`? -/
def atPos (r c : Nat) (w : SheetWrite) : Bool := (w.1 == r) && (w.2.1 == c)

/-- What row 1 of the output sheet holds in a column: the colour hex text
with the colour as fill, or a blank unfilled cell. -/
def headRow1 (c : Nat) : OutCell :=
  match SHELF_COLORS (shelfAt c) with
  | some hc => ⟨hc, some hc⟩
  | none => ⟨"", none⟩

/-- What row 2 of the output sheet holds in a column: the shelf name, with
the column's configured colour (if any) as fill. -/
def headRow2 (c : Nat) : OutCell := ⟨shelfAt c, SHELF_COLORS (shelfAt c)⟩

theorem applyWrites_lookup (ws : List SheetWrite) : ∀ (g : SheetGrid) (r c : Nat),
    applyWrites g ws r c = (ws.filter (atPos r c)).foldl (fun _ w => w.2.2) (g r c) := by
  induction ws with
  | nil => intro g r c; rfl
  | cons w t ih =>
    intro g r c
    rw [show applyWrites g (w :: t) = applyWrites (writeCell g w.1 w.2.1 w.2.2) t from rfl, ih]
    rw [List.filter_cons]
    by_cases hp : atPos r c w = true
    · rw [if_pos hp, List.foldl_cons]
      congr 1
      simp only [atPos, Bool.and_eq_true, beq_iff_eq] at hp
      unfold writeCell
      rw [if_pos ⟨hp.1.symm, hp.2.symm⟩]
    · rw [if_neg hp]
      congr 1
      simp only [atPos, Bool.and_eq_true, beq_iff_eq] at hp
      unfold writeCell
      rw [if_neg (fun hco => hp ⟨hco.1.symm, hco.2.symm⟩)]

theorem filter_atPos_nil_row (ws : List SheetWrite) (r c : Nat)
    (h : ∀ w ∈ ws, w.1 ≠ r) : ws.filter (atPos r c) = [] := by
  apply List.filter_eq_nil_iff.mpr
  intro w hw
  simp only [atPos, Bool.and_eq_true, beq_iff_eq]
  rintro ⟨hr, -⟩
  exact h w hw hr

theorem filter_atPos_nil_col (ws : List SheetWrite) (r c : Nat)
    (h : ∀ w ∈ ws, w.2.1 ≠ c) : ws.filter (atPos r c) = [] := by
  apply List.filter_eq_nil_iff.mpr
  intro w hw
  simp only [atPos, Bool.and_eq_true, beq_iff_eq]
  rintro ⟨-, hc⟩
  exact h w hw hc

theorem flatMap_nil_of {α β : Type} (l : List α) (f : α → List β)
    (h : ∀ x ∈ l, f x = []) : l.flatMap f = [] := by
  induction l with
  | nil => rfl
  | cons a t ih =>
    rw [List.flatMap_cons, h a (by simp), ih (fun x hx => h x (by simp [hx]))]
    rfl

theorem flatMap_single {β : Type} (n c : Nat) (f : Nat → List β) (hc : c < n)
    (h : ∀ x, x < n → x ≠ c → f x = []) : (List.range n).flatMap f = f c := by
  induction n with
  | zero => omega
  | succ n ih =>
    rw [List.range_succ, List.flatMap_append]
    by_cases hcn : c = n
    · subst hcn
      rw [flatMap_nil_of (List.range c) f
        (fun x hx => h x (by have := List.mem_range.mp hx; omega)
          (fun he => by have := List.mem_range.mp hx; omega))]
      simp
    · have hlt : c < n := by omega
      rw [ih hlt (fun x hx hxc => h x (by omega) hxc),
        flatMap_nil_of [n] f (fun x hx => by
          rw [List.mem_singleton.mp hx]
          exact h n (by omega) (fun he => hcn he.symm))]
      simp

theorem range_filter_beq (n i : Nat) :
    (List.range n).filter (fun j => j == i) = if i < n then [i] else [] := by
  induction n with
  | zero => simp
  | succ n ih =>
    rw [List.range_succ, List.filter_append, ih]
    by_cases hin : i < n
    · rw [if_pos hin, if_pos (by omega)]
      have hne : (n == i) = false := by
        simp only [beq_eq_false_iff_ne, ne_eq]
        omega
      simp [List.filter, hne]
    · by_cases hieq : i = n
      · subst hieq
        rw [if_neg (lt_irrefl i), if_pos (by omega)]
        simp [List.filter]
      · rw [if_neg hin, if_neg (by omega)]
        have hne : (n == i) = false := by
          simp only [beq_eq_false_iff_ne, ne_eq]
          omega
        simp [List.filter, hne]

theorem dataColWrites_shape (df : String → List String) (c1 : Nat) (w : SheetWrite)
    (hw : w ∈ dataColWrites df c1) : ∃ i, w.1 = 2 + i ∧ w.2.1 = c1 := by
  unfold dataColWrites at hw
  obtain ⟨i, hi, rfl⟩ := List.mem_map.mp hw
  exact ⟨i, rfl, rfl⟩

theorem headerColWrites_shape (c1 : Nat) (w : SheetWrite) (hw : w ∈ headerColWrites c1) :
    (w.1 = 0 ∨ w.1 = 1) ∧ w.2.1 = c1 := by
  unfold headerColWrites at hw
  cases h : SHELF_COLORS (shelfAt c1) with
  | some hc =>
    simp only [h] at hw
    rcases List.mem_cons.mp hw with rfl | hw2
    · exact ⟨Or.inl rfl, rfl⟩
    · rcases List.mem_singleton.mp hw2 with rfl
      exact ⟨Or.inr rfl, rfl⟩
  | none =>
    simp only [h] at hw
    rcases List.mem_cons.mp hw with rfl | hw2
    · exact ⟨Or.inl rfl, rfl⟩
    · rcases List.mem_singleton.mp hw2 with rfl
      exact ⟨Or.inr rfl, rfl⟩

theorem othersRowWrite_shape (df : String → List String) (oc : List (Option String))
    (i : Nat) (w : SheetWrite) (hw : w ∈ othersRowWrite df oc i) :
    w.1 = 2 + i ∧ w.2.1 = others_col_idx := by
  unfold othersRowWrite at hw
  cases h : oc.getD i none with
  | none =>
    rw [h] at hw
    simp at hw
  | some sv =>
    simp only [h] at hw
    by_cases hs : sv = ""
    · rw [if_pos hs] at hw
      simp at hw
    · rw [if_neg hs] at hw
      rcases List.mem_singleton.mp hw with rfl
      exact ⟨rfl, rfl⟩

theorem dataWrites_shape (df : String → List String) (w : SheetWrite)
    (hw : w ∈ dataWrites df) : ∃ i, w.1 = 2 + i := by
  unfold dataWrites at hw
  obtain ⟨c1, hc1, hw⟩ := List.mem_flatMap.mp hw
  obtain ⟨i, hi, -⟩ := dataColWrites_shape df c1 w hw
  exact ⟨i, hi⟩

theorem headerWrites_shape (w : SheetWrite) (hw : w ∈ headerWrites) :
    w.1 = 0 ∨ w.1 = 1 := by
  unfold headerWrites at hw
  obtain ⟨c1, hc1, hw⟩ := List.mem_flatMap.mp hw
  exact (headerColWrites_shape c1 w hw).1

theorem othersWrites_shape (df : String → List String) (oc : List (Option String))
    (w : SheetWrite) (hw : w ∈ othersWrites df oc) :
    ∃ i, i < oc.length ∧ w.1 = 2 + i ∧ w.2.1 = others_col_idx := by
  unfold othersWrites at hw
  obtain ⟨i, hi, hw⟩ := List.mem_flatMap.mp hw
  obtain ⟨h1, h2⟩ := othersRowWrite_shape df oc i w hw
  exact ⟨i, List.mem_range.mp hi, h1, h2⟩

theorem headerColWrites_filter_self (c : Nat) :
    (headerColWrites c).filter (atPos 0 c) = [(0, c, headRow1 c)] ∧
    (headerColWrites c).filter (atPos 1 c) = [(1, c, headRow2 c)] := by
  unfold headerColWrites headRow1 headRow2
  cases h : SHELF_COLORS (shelfAt c) with
  | some hc => constructor <;> simp [h, atPos, List.filter_cons]
  | none => constructor <;> simp [h, atPos, List.filter_cons]

theorem dataColWrites_filter_self (df : String → List String) (c i : Nat) :
    (dataColWrites df c).filter (atPos (2 + i) c) =
      if i < (df (shelfAt c)).length
      then [(2 + i, c, (⟨(df (shelfAt c)).getD i "", none⟩ : OutCell))] else [] := by
  unfold dataColWrites
  rw [List.filter_map]
  have hcong : (List.range (df (shelfAt c)).length).filter
      ((atPos (2 + i) c) ∘ (fun i1 =>
        ((2 + i1, c, (⟨(df (shelfAt c)).getD i1 "", none⟩ : OutCell)) : SheetWrite))) =
      (List.range (df (shelfAt c)).length).filter (fun j => j == i) := by
    apply List.filter_congr
    intro x hx
    show ((2 + x == 2 + i) && (c == c)) = (x == i)
    rw [beq_self_eq_true, Bool.and_true]
    by_cases hxi : x = i
    · subst hxi
      simp
    · have h1 : (2 + x == 2 + i) = false := by
        simp only [beq_eq_false_iff_ne, ne_eq]
        omega
      have h2 : (x == i) = false := by
        simp only [beq_eq_false_iff_ne, ne_eq]
        exact hxi
      rw [h1, h2]
  rw [hcong, range_filter_beq]
  by_cases hi : i < (df (shelfAt c)).length
  · rw [if_pos hi, if_pos hi]
    rfl
  · rw [if_neg hi, if_neg hi]
    rfl

theorem othersRowWrite_filter_self (df : String → List String) (oc : List (Option String))
    (i : Nat) :
    (othersRowWrite df oc i).filter (atPos (2 + i) others_col_idx) = othersRowWrite df oc i := by
  apply List.filter_eq_self.mpr
  intro w hw
  obtain ⟨h1, h2⟩ := othersRowWrite_shape df oc i w hw
  simp [atPos, h1, h2]

theorem headerWrites_filter0 (c : Nat) (hc : c < SHELF_ORDER.length) :
    headerWrites.filter (atPos 0 c) = [(0, c, headRow1 c)] := by
  unfold headerWrites
  rw [List.filter_flatMap,
    flatMap_single SHELF_ORDER.length c (fun a => (headerColWrites a).filter (atPos 0 c)) hc
      (fun x hx hxc => filter_atPos_nil_col _ _ _ (fun w hw => by
        rw [(headerColWrites_shape x w hw).2]
        exact hxc))]
  exact (headerColWrites_filter_self c).1

theorem headerWrites_filter1 (c : Nat) (hc : c < SHELF_ORDER.length) :
    headerWrites.filter (atPos 1 c) = [(1, c, headRow2 c)] := by
  unfold headerWrites
  rw [List.filter_flatMap,
    flatMap_single SHELF_ORDER.length c (fun a => (headerColWrites a).filter (atPos 1 c)) hc
      (fun x hx hxc => filter_atPos_nil_col _ _ _ (fun w hw => by
        rw [(headerColWrites_shape x w hw).2]
        exact hxc))]
  exact (headerColWrites_filter_self c).2

theorem dataWrites_filter (df : String → List String) (i c : Nat)
    (hc : c < SHELF_ORDER.length) :
    (dataWrites df).filter (atPos (2 + i) c) =
      if i < (df (shelfAt c)).length
      then [(2 + i, c, (⟨(df (shelfAt c)).getD i "", none⟩ : OutCell))] else [] := by
  unfold dataWrites
  rw [List.filter_flatMap,
    flatMap_single SHELF_ORDER.length c (fun a => (dataColWrites df a).filter (atPos (2 + i) c)) hc
      (fun x hx hxc => filter_atPos_nil_col _ _ _ (fun w hw => by
        obtain ⟨j, -, hj2⟩ := dataColWrites_shape df x w hw
        rw [hj2]
        exact hxc))]
  exact dataColWrites_filter_self df c i

theorem othersWrites_filter (df : String → List String) (oc : List (Option String)) (i : Nat) :
    (othersWrites df oc).filter (atPos (2 + i) others_col_idx) = othersRowWrite df oc i := by
  unfold othersWrites
  rw [List.filter_flatMap]
  by_cases hi : i < oc.length
  · rw [flatMap_single oc.length i
      (fun a => (othersRowWrite df oc a).filter (atPos (2 + i) others_col_idx)) hi
      (fun x hx hxc => filter_atPos_nil_row _ _ _ (fun w hw => by
        obtain ⟨h1, -⟩ := othersRowWrite_shape df oc x w hw
        rw [h1]
        omega))]
    exact othersRowWrite_filter_self df oc i
  · rw [flatMap_nil_of _ _ (fun x hx => filter_atPos_nil_row _ _ _ (fun w hw => by
      obtain ⟨h1, -⟩ := othersRowWrite_shape df oc x w hw
      have hxl := List.mem_range.mp hx
      rw [h1]
      omega))]
    unfold othersRowWrite
    rw [List.getD_eq_default _ _ (by omega)]

theorem write_output_sheet_row0 (df : String → List String) (oc : List (Option String))
    (c : Nat) (hc : c < SHELF_ORDER.length) :
    write_output_sheet df oc 0 c = headRow1 c := by
  unfold write_output_sheet sheetWrites
  rw [applyWrites_lookup, List.filter_append, List.filter_append,
    filter_atPos_nil_row (dataWrites df) 0 c (fun w hw => by
      obtain ⟨i, hi⟩ := dataWrites_shape df w hw
      omega),
    headerWrites_filter0 c hc,
    filter_atPos_nil_row (othersWrites df oc) 0 c (fun w hw => by
      obtain ⟨i, -, h1, -⟩ := othersWrites_shape df oc w hw
      omega)]
  rfl

theorem write_output_sheet_row1 (df : String → List String) (oc : List (Option String))
    (c : Nat) (hc : c < SHELF_ORDER.length) :
    write_output_sheet df oc 1 c = headRow2 c := by
  unfold write_output_sheet sheetWrites
  rw [applyWrites_lookup, List.filter_append, List.filter_append,
    filter_atPos_nil_row (dataWrites df) 1 c (fun w hw => by
      obtain ⟨i, hi⟩ := dataWrites_shape df w hw
      omega),
    headerWrites_filter1 c hc,
    filter_atPos_nil_row (othersWrites df oc) 1 c (fun w hw => by
      obtain ⟨i, -, h1, -⟩ := othersWrites_shape df oc w hw
      omega)]
  rfl

theorem shelfAt_others : shelfAt others_col_idx = "Others" := by decide

theorem write_output_sheet_data (df : String → List String) (oc : List (Option String))
    (c i : Nat) (hc : c < SHELF_ORDER.length) :
    (write_output_sheet df oc (2 + i) c).text = (df (shelfAt c)).getD i "" := by
  unfold write_output_sheet sheetWrites
  rw [applyWrites_lookup, List.filter_append, List.filter_append,
    filter_atPos_nil_row headerWrites (2 + i) c (fun w hw => by
      rcases headerWrites_shape w hw with h | h <;> omega),
    dataWrites_filter df i c hc]
  by_cases hcol : c = others_col_idx
  · subst hcol
    rw [othersWrites_filter df oc i]
    unfold othersRowWrite
    cases hgd : oc.getD i none with
    | none =>
      dsimp only
      by_cases hi : i < (df (shelfAt others_col_idx)).length
      · rw [if_pos hi]
        rfl
      · rw [if_neg hi, List.getD_eq_default _ _ (by omega)]
        rfl
    | some sv =>
      dsimp only
      by_cases hs : sv = ""
      · rw [if_pos hs]
        by_cases hi : i < (df (shelfAt others_col_idx)).length
        · rw [if_pos hi]
          rfl
        · rw [if_neg hi, List.getD_eq_default _ _ (by omega)]
          rfl
      · rw [if_neg hs, shelfAt_others]
        by_cases hi : i < (df "Others").length
        · rw [if_pos hi]
          rfl
        · rw [if_neg hi]
          rfl
  · rw [filter_atPos_nil_col (othersWrites df oc) (2 + i) c (fun w hw => by
      obtain ⟨j, -, -, h2⟩ := othersWrites_shape df oc w hw
      rw [h2]
      exact fun he => hcol he.symm)]
    by_cases hi : i < (df (shelfAt c)).length
    · rw [if_pos hi]
      rfl
    · rw [if_neg hi, List.getD_eq_default _ _ (by omega)]
      rfl

/-- C6: in the sheet `write_output_workbook` emits for a table, every
bucket column `c` has: row 1 holding the configured display colour's hex
text (empty when the bucket's colour is undefined) with that colour as the
cell's fill; row 2 holding the bucket's display name with the same fill;
and rows 3 onward holding exactly the packed column cells in order, pad
positions staying blank. -/
theorem write_output_sheet_layout (df : String → List String) (oc : List (Option String))
    (c : Nat) (hc : c < SHELF_ORDER.length) :
    write_output_sheet df oc 0 c =
      ⟨(SHELF_COLORS (shelfAt c)).getD "", SHELF_COLORS (shelfAt c)⟩ ∧
    write_output_sheet df oc 1 c = ⟨shelfAt c, SHELF_COLORS (shelfAt c)⟩ ∧
    ∀ i, (write_output_sheet df oc (2 + i) c).text = (df (shelfAt c)).getD i "" := by
  refine ⟨?_, ?_, fun i => write_output_sheet_data df oc c i hc⟩
  · rw [write_output_sheet_row0 df oc c hc]
    unfold headRow1
    cases h : SHELF_COLORS (shelfAt c) <;> rfl
  · rw [write_output_sheet_row1 df oc c hc]
    rfl

/-- Witness for C6: the first column of a small concrete table. -/
theorem write_output_sheet_layout_witness :
    (0 < SHELF_ORDER.length) ∧
    write_output_sheet (fun s => if s = "A" then ["HAZ-A101A110"] else []) [] 0 0 =
      ⟨"#00B050", some "#00B050"⟩ := by
  refine ⟨by decide, ?_⟩
  have h := (write_output_sheet_layout (fun s => if s = "A" then ["HAZ-A101A110"] else [])
    [] 0 (by decide)).1
  rw [h]
  decide

end OrganizeDarkStores
